import Mathlib

/-!
# FreeFire.c : inventory ("mochila") kept in a fixed array of ten records

Shallow embedding of `src/FreeFire.c`.

* A `char[]` field is represented by the text it holds before the terminating
  NUL (`Texto`), which is not cut to the size of the field: a text as long as
  its field or longer stands for a write past the end of the field.
* A `float` is represented by its 32 stored bits (the program only stores,
  copies and prints the weight); an `int` by an `Int`, with `int32` applied
  where the C arithmetic can leave the 32-bit range.
* The global `contador_itens` and the array `mochila` of `main` form `Estado`.
* The C library reads are outside the repository.  A `scanf` is given by
  what it converted, `none` when it converted nothing; `fgets` by the input
  that was waiting when it was called, of which it takes one line, at most
  the size it is passed less one character.  A variable that a failed read
  leaves untouched keeps its previous, indeterminate content, which the
  functions take as an argument.
* A `void` function that prints becomes a function returning the new state
  and the list of messages printed (`Saida`); fixed banners and prompts are
  left out.
-/

namespace FreeFire

/-! ## Constants and data -/

/-- Capacity of the inventory: `#define MAX_INVENTARIO 10`. -/
def MAX_INVENTARIO : Int := 10

/-- Size of the name buffer: `#define MAX_NOME 50`. -/
def MAX_NOME : Nat := 50

/-- Size of the category buffer: `#define MAX_TIPO 20`. -/
def MAX_TIPO : Nat := 20

/-- The text held by a `char[]` buffer, up to its terminating NUL. -/
abbrev Texto := List Char

/-- Record `typedef struct { char nome[MAX_NOME]; char tipo[MAX_TIPO]; float peso; int quantidade; } Item;`
The field `peso` holds the 32 bits of the `float`. -/
structure Item where
  nome : Texto
  tipo : Texto
  peso : Nat
  quantidade : Int
deriving DecidableEq, Repr, Inhabited

/-- The array `mochila[MAX_INVENTARIO]` of `main` together with the global
`contador_itens`. -/
structure Estado where
  inventario : List Item
  contador_itens : Int
deriving DecidableEq, Repr

/-- The messages the program prints that depend on the data. -/
inductive Saida where
  /-- Message `[MOCHILA CHEIA!] Capacidade máxima (%d) atingida.` -/
  | mochilaCheia (capacidade : Int)
  /-- Message `[SUCESSO] '%s' (%s) adicionado à mochila. Espaço restante: %d.` -/
  | adicionado (nome tipo : Texto) (restante : Int)
  /-- Message `[AVISO] A mochila está vazia. Nada a remover.` -/
  | nadaARemover
  /-- Message `[ERRO] Índice inválido. Tente novamente.` -/
  | indiceInvalido
  /-- Message `[SUCESSO] Item '%s' removido da mochila.` -/
  | removido (nome : Texto)
  /-- Message `A MOCHILA ESTÁ VAZIA!` (table of `listarItens`) -/
  | mochilaVazia
  /-- One table row of `listarItens`: ID, NOME, TIPO, QTD, PESO. -/
  | linha (id : Int) (nome tipo : Texto) (quantidade : Int) (peso : Nat)
  /-- Message `[AVISO] A mochila está vazia. Não há itens para buscar.` -/
  | nadaABuscar
  /-- Message `[ENCONTRADO!] Item '%s' na posição %d (Tipo: %s, Qtd: %d, Peso: %.2f).` -/
  | encontrado (nome : Texto) (posicao : Int) (tipo : Texto) (quantidade : Int) (peso : Nat)
  /-- Message `[NÃO ENCONTRADO] O item '%s' não está na mochila.` -/
  | naoEncontrado (nome : Texto)
  /-- Message `[ERRO] Opção inválida. Digite um número.` -/
  | opcaoInvalida
  /-- Message `Saindo do jogo...` -/
  | saindo
  /-- Message `[AVISO] Opção não reconhecida. Tente novamente.` -/
  | opcaoNaoReconhecida
deriving DecidableEq, Repr

/-! ## Machine integers, array access, C library -/

/-- Value of a C `int` expression: two's complement wrap to 32 bits. -/
def int32 (x : Int) : Int := (x + 2147483648) % 4294967296 - 2147483648

/-- Least `int`, `INT_MIN`. -/
def INT_MIN : Int := -2147483648

/-- Greatest `int`, `INT_MAX`. -/
def INT_MAX : Int := 2147483647

/-- Array read `inventario[i]`. -/
def ler (inventario : List Item) (i : Int) : Item :=
  inventario.getD i.toNat default

/-- Array write `inventario[i] = v`. -/
def escrever (inventario : List Item) (i : Int) (v : Item) : List Item :=
  inventario.set i.toNat v

/-- C library `strcmp`: negative, zero or positive as the first text is less than,
equal to or greater than the second, bytes compared as unsigned. -/
def strcmp : Texto → Texto → Int
  | [], [] => 0
  | [], _ :: _ => -1
  | _ :: _, [] => 1
  | a :: as, b :: bs =>
    if a = b then strcmp as bs else if a.toNat < b.toNat then -1 else 1

/-- C library `strcspn(s, rejeitar)`: length of the longest prefix of `s` with no
character of `rejeitar`. -/
def strcspn : Texto → Texto → Nat
  | [], _ => 0
  | c :: cs, rejeitar => if c ∈ rejeitar then 0 else strcspn cs rejeitar + 1

/-- Statement `s[strcspn(s, "\n")] = '\0'`: the text is cut at its first newline. -/
def cortarNovaLinha (s : Texto) : Texto :=
  s.take (strcspn s ['\n'])

/-- The characters `fgets` takes from the input waiting: up to and including
the first newline, and at most `k`. -/
def fgetsLinha : Nat → Texto → Texto
  | 0, _ => []
  | _ + 1, [] => []
  | k + 1, c :: cs => if c = '\n' then [c] else c :: fgetsLinha k cs

/-- C library `fgets(buf, tamanho, stdin)`, where `entrada` is the input waiting:
what it puts into the buffer, or `none` (it returns `NULL`) when there is
no input left. -/
def fgets (tamanho : Nat) (entrada : Texto) : Option Texto :=
  match entrada with
  | [] => none
  | c :: cs => some (fgetsLinha (tamanho - 1) (c :: cs))

/-- C library `isspace` in the C locale: the space (code 32) and the codes 9
to 13, which are tab, newline, vertical tab, form feed and carriage return. -/
def isspace (c : Char) : Bool :=
  decide (c.toNat = 32) || (decide (9 ≤ c.toNat) && decide (c.toNat ≤ 13))

/-- What `scanf("%s", ...)` converts from the input waiting: the white space
in front is skipped, then every character up to the next white space is
taken, with no limit on their number; `none` when nothing but white space is
left. -/
def scanfPalavra (entrada : Texto) : Option Texto :=
  match (entrada.dropWhile isspace).takeWhile (fun c => !isspace c) with
  | [] => none
  | c :: cs => some (c :: cs)

/-- Statement `if (fgets(buf, sizeof(buf), stdin) != NULL) buf[strcspn(buf, "\n")] = '\0';`
where `lido` is the result of the `fgets` (with `NULL` the buffer keeps its
content). -/
def lerLinha (buf : Texto) (lido : Option Texto) : Texto :=
  match lido with
  | some s => cortarNovaLinha s
  | none => buf

/-- Call `scanf(fmt, &x)` with one conversion: `x` receives the converted value,
and is left as it was when nothing is converted. -/
def scanf {α : Type} (x : α) (lido : Option α) : α :=
  match lido with
  | some v => v
  | none => x

/-! ## The four operations -/

/-- What the four reads of `inserirItem` meet: the input waiting at the
`fgets` for the name, and what `scanf("%s")`, `scanf("%f")` and `scanf("%d")`
convert; the word `scanf("%s")` converts can have any length. -/
structure LeituraItem where
  nome : Texto
  tipo : Option Texto
  peso : Option Nat
  quantidade : Option Int
deriving DecidableEq, Repr

/-- Function `void inserirItem(Item inventario[])`; `novo_item` is the indeterminate
initial content of the local of that name.  The category kept is the text
`scanf("%s")` wrote from the start of `novo_item.tipo`: the source gives the
conversion no width, so the field `tipo[MAX_TIPO]` holds that text only when
it has fewer than `MAX_TIPO` characters; a longer one is written past the
end of the field, and of that overrun the embedding shows the text written,
not the bytes of the record it lands on. -/
def inserirItem (st : Estado) (novo_item : Item) (l : LeituraItem) : Estado × List Saida :=
  if st.contador_itens ≥ MAX_INVENTARIO then
    (st, [Saida.mochilaCheia MAX_INVENTARIO])
  else
    let novo_item :=
      { novo_item with nome := lerLinha novo_item.nome (fgets MAX_NOME l.nome) }
    let novo_item := { novo_item with tipo := scanf novo_item.tipo l.tipo }
    let novo_item := { novo_item with peso := scanf novo_item.peso l.peso }
    let novo_item := { novo_item with quantidade := scanf novo_item.quantidade l.quantidade }
    let inventario := escrever st.inventario st.contador_itens novo_item
    let contador_itens := int32 (st.contador_itens + 1)
    ({ inventario := inventario, contador_itens := contador_itens },
      [Saida.adicionado novo_item.nome novo_item.tipo (int32 ( MAX_INVENTARIO - contador_itens))])

/-- The loop `for (int i = ...; i < contador_itens; i++) printf(row i)` of
`listarItens`, entered at `i`; the first argument counts the iterations
still allowed. -/
def listarLaco (inventario : List Item) (contador_itens : Int) : Nat → Int → List Saida
  | 0, _ => []
  | k + 1, i =>
    if i < contador_itens then
      Saida.linha (int32 (i + 1)) (ler inventario i).nome (ler inventario i).tipo
          (ler inventario i).quantidade (ler inventario i).peso
        :: listarLaco inventario contador_itens k (int32 (i + 1))
    else []

/-- Function `void listarItens(Item inventario[])`. -/
def listarItens (st : Estado) : Estado × List Saida :=
  if st.contador_itens = 0 then
    (st, [Saida.mochilaVazia])
  else
    (st, listarLaco st.inventario st.contador_itens (st.contador_itens - 0).toNat 0)

/-- The loop `for (int i = ...; i < contador_itens - 1; i++) inventario[i] = inventario[i + 1];`
of `removerItem`, entered at `i`; the first argument counts the iterations
still allowed. -/
def deslocarLaco (contador_itens : Int) : Nat → Int → List Item → List Item
  | 0, _, inventario => inventario
  | k + 1, i, inventario =>
    if i < int32 (contador_itens - 1) then
      deslocarLaco contador_itens k (int32 (i + 1))
        (escrever inventario i (ler inventario (int32 (i + 1))))
    else inventario

/-- Function `void removerItem(Item inventario[])`; `indice_remover` is the
indeterminate initial value of the local of that name and `lido` what
`scanf("%d", &indice_remover)` converts. -/
def removerItem (st : Estado) (indice_remover : Int) (lido : Option Int) : Estado × List Saida :=
  if st.contador_itens = 0 then
    (st, [Saida.nadaARemover])
  else
    let lista := (listarItens st).2
    let indice_remover := scanf indice_remover lido
    let indice_remover := int32 (indice_remover - 1)
    if indice_remover < 0 ∨ indice_remover ≥ st.contador_itens then
      (st, lista ++ [Saida.indiceInvalido])
    else
      let nome_removido := (ler st.inventario indice_remover).nome
      let inventario := deslocarLaco st.contador_itens
        (int32 (st.contador_itens - 1) - indice_remover).toNat indice_remover st.inventario
      ({ inventario := inventario, contador_itens := int32 (st.contador_itens - 1) },
        lista ++ [Saida.removido nome_removido])

/-- The search loop of `buscarItem`, entered at `i`: the message printed at
the first match (`break`), or nothing when the loop runs to its end
(`encontrado` still 0); the first argument counts the iterations still
allowed. -/
def buscarLaco (inventario : List Item) (contador_itens : Int) (nome_busca : Texto) :
    Nat → Int → Option Saida
  | 0, _ => none
  | k + 1, i =>
    if i < contador_itens then
      if strcmp (ler inventario i).nome nome_busca = 0 then
        some (Saida.encontrado (ler inventario i).nome (int32 (i + 1)) (ler inventario i).tipo
          (ler inventario i).quantidade (ler inventario i).peso)
      else buscarLaco inventario contador_itens nome_busca k (int32 (i + 1))
    else none

/-- Function `void buscarItem(Item inventario[])`; `nome_busca` is the indeterminate
initial content of the local buffer and `entrada` the input waiting at the
`fgets`. -/
def buscarItem (st : Estado) (nome_busca : Texto) (entrada : Texto) : Estado × List Saida :=
  if st.contador_itens = 0 then
    (st, [Saida.nadaABuscar])
  else
    let nome_busca := lerLinha nome_busca (fgets MAX_NOME entrada)
    match buscarLaco st.inventario st.contador_itens nome_busca (st.contador_itens - 0).toNat 0 with
    | some achado => (st, [achado])
    | none => (st, [Saida.naoEncontrado nome_busca])

/-! ## The menu loop of `main` -/

/-- What the reads of one pass through the menu loop deliver (`opcao` for
`scanf("%d", &opcao)`, which is `none` when its result is not 1, then the
reads of the operation chosen), with the indeterminate initial contents of
the locals `novo_item`, `indice_remover` and `nome_busca`. -/
structure Entrada where
  opcao : Option Int
  novo_item : Item
  leitura : LeituraItem
  indice_remover : Int
  indice : Option Int
  nome_busca : Texto
  busca : Texto
deriving DecidableEq, Repr

/-- The variables `main` works on: the inventory and the local `opcao`. -/
structure Programa where
  st : Estado
  opcao : Int
deriving DecidableEq, Repr

/-- One pass through the body of the `do { ... } while (opcao != 0)` loop of
`main`: the read of the option, with `continue` when it fails, and the
`switch`. -/
def iteracao (m : Programa) (e : Entrada) : Programa × List Saida :=
  match e.opcao with
  | none => (m, [Saida.opcaoInvalida])
  | some opcao =>
    if opcao = 1 then
      ({ st := (inserirItem m.st e.novo_item e.leitura).1, opcao := opcao },
        (inserirItem m.st e.novo_item e.leitura).2)
    else if opcao = 2 then
      ({ st := (removerItem m.st e.indice_remover e.indice).1, opcao := opcao },
        (removerItem m.st e.indice_remover e.indice).2)
    else if opcao = 3 then
      ({ st := (listarItens m.st).1, opcao := opcao }, (listarItens m.st).2)
    else if opcao = 4 then
      ({ st := (buscarItem m.st e.nome_busca e.busca).1, opcao := opcao },
        (buscarItem m.st e.nome_busca e.busca).2)
    else if opcao = 0 then
      ({ st := m.st, opcao := opcao }, [Saida.saindo])
    else
      ({ st := m.st, opcao := opcao }, [Saida.opcaoNaoReconhecida])

/-- The loop `do { ... } while (opcao != 0)` of `main` run on the inputs of
its successive passes; it ends when a pass leaves `opcao` at 0, or with the
inputs. -/
def laco : Programa → List Entrada → Programa × List Saida
  | m, [] => (m, [])
  | m, e :: es =>
    if (iteracao m e).1.opcao ≠ 0 then
      ((laco (iteracao m e).1 es).1, (iteracao m e).2 ++ (laco (iteracao m e).1 es).2)
    else iteracao m e

/-- Function `int main()`: `contador_itens` starts at 0 (its initialiser), the array
`mochila` and `opcao` start indeterminate. -/
def main (mochila : List Item) (opcao : Int) (es : List Entrada) : Programa × List Saida :=
  laco { st := { inventario := mochila, contador_itens := 0 }, opcao := opcao } es

/-- Successive calls of `inserirItem`, one per element of the list of reads. -/
def inserirVarios (st : Estado) (novo_item : Item) : List LeituraItem → Estado × List Saida
  | [] => (st, [])
  | l :: ls =>
    ((inserirVarios (inserirItem st novo_item l).1 novo_item ls).1,
      (inserirItem st novo_item l).2 ++ (inserirVarios (inserirItem st novo_item l).1 novo_item ls).2)

/-! ## Views of the state used by the statements -/

/-- The state is one the program can be in: the array has its declared
`MAX_INVENTARIO` entries and the counter lies in `0 .. MAX_INVENTARIO`. -/
def Estado.valido (st : Estado) : Prop :=
  st.inventario.length = 10 ∧ 0 ≤ st.contador_itens ∧ st.contador_itens ≤ MAX_INVENTARIO

instance (st : Estado) : Decidable st.valido := by
  unfold Estado.valido; infer_instance

/-- The inventory as a sequence: the first `contador_itens` entries of the
array, in storage order. -/
def itens (st : Estado) : List Item :=
  st.inventario.take st.contador_itens.toNat

/-- The item the four reads of `inserirItem` build in `novo_item`. -/
def itemLido (novo_item : Item) (l : LeituraItem) : Item :=
  { nome := lerLinha novo_item.nome (fgets MAX_NOME l.nome)
    tipo := scanf novo_item.tipo l.tipo
    peso := scanf novo_item.peso l.peso
    quantidade := scanf novo_item.quantidade l.quantidade }

/-- The reads of `inserirItem` when the user types the fields of `x`, each
followed by the return key: `fgets` meets the name line, `scanf("%s")`
converts from the category line what it converts from any input (one word,
so not all of a category with white space in it), and the weight and the
quantity are converted to the values of `x`. -/
def LeituraItem.digitado (x : Item) : LeituraItem :=
  { nome := x.nome ++ ['\n']
    tipo := scanfPalavra (x.tipo ++ ['\n'])
    peso := some x.peso
    quantidade := some x.quantidade }

/-- The item `x` is a value of the C record that a user can type: both texts
are C strings (no NUL); the name is one line (no newline) of fewer than
`MAX_NOME` characters, so `nome[MAX_NOME]` holds it; the category is one word
(not empty, no white space) of fewer than `MAX_TIPO` characters, so
`tipo[MAX_TIPO]` holds it and `scanf("%s")` does not overrun the field; the
weight is the bits of a `float` and the quantity an `int`. -/
def Item.digitavel (x : Item) : Prop :=
  Char.ofNat 0 ∉ x.nome ∧ '\n' ∉ x.nome ∧ x.nome.length < MAX_NOME ∧
  x.tipo ≠ [] ∧ Char.ofNat 0 ∉ x.tipo ∧ (∀ c ∈ x.tipo, isspace c = false) ∧
  x.tipo.length < MAX_TIPO ∧
  x.peso < 4294967296 ∧ INT_MIN ≤ x.quantidade ∧ x.quantidade ≤ INT_MAX

instance (x : Item) : Decidable x.digitavel := by
  unfold Item.digitavel; infer_instance

/-- The item `("Faca", "Arma", 0.5, 1)` of the specification's example; the
bits `0x3F000000` are the `float` 0.5. -/
def faca : Item :=
  { nome := ['F', 'a', 'c', 'a'], tipo := ['A', 'r', 'm', 'a'], peso := 0x3F000000, quantidade := 1 }

/-- The item `("Kit", "Medico", 1.2, 2)` of the specification's example; the
bits `0x3F99999A` are the `float` nearest to 1.2. -/
def kit : Item :=
  { nome := ['K', 'i', 't'], tipo := ['M', 'e', 'd', 'i', 'c', 'o'], peso := 0x3F99999A,
    quantidade := 2 }

/-- A state whose inventory is `xs` (at most ten items): the array holds
`xs` followed by unused entries, the counter is the number of items. -/
def mochilaDe (xs : List Item) : Estado :=
  { inventario := xs ++ List.replicate (10 - xs.length) default
    contador_itens := xs.length }

/-- The table rows expected for the items `xs`, numbered from `id` on. -/
def linhasDe : Int → List Item → List Saida
  | _, [] => []
  | id, x :: xs => Saida.linha id x.nome x.tipo x.quantidade x.peso :: linhasDe (id + 1) xs

/-- The listing expected for the item sequence `xs`: the empty-inventory
message, or one row per item numbered from 1 in sequence order. -/
def tabela (xs : List Item) : List Saida :=
  if xs = [] then [Saida.mochilaVazia] else linhasDe 1 xs

/-- The success messages expected when the items `xs` are inserted one after
another with `restante` free places at the start. -/
def sucessos : Int → List Item → List Saida
  | _, [] => []
  | restante, x :: xs =>
    Saida.adicionado x.nome x.tipo (restante - 1) :: sucessos (restante - 1) xs

/-- Linear search as the specification words it: the first item of `xs`
whose name is `s`, reported with its position, positions counted from `pos`. -/
def procurar (s : Texto) : Int → List Item → Option Saida
  | _, [] => none
  | pos, x :: xs =>
    if x.nome = s then some (Saida.encontrado x.nome pos x.tipo x.quantidade x.peso)
    else procurar s (pos + 1) xs

/-- The result of `findByName` as the specification types it, an optional
pair of position and item, read off what `buscarItem` printed: the pair of
the `encontrado` message, and nothing for any other output. -/
def resultadoBusca : List Saida → Option (Int × Item)
  | [Saida.encontrado nome posicao tipo quantidade peso] =>
    some (posicao, { nome := nome, tipo := tipo, peso := peso, quantidade := quantidade })
  | _ => none

/-- The item named `Kit Medico` of the specification's search example, a
name with a space in it. -/
def kitMedico : Item :=
  { nome := ['K', 'i', 't', ' ', 'M', 'e', 'd', 'i', 'c', 'o'],
    tipo := ['M', 'e', 'd', 'i', 'c', 'o'], peso := 0x3F99999A, quantidade := 2 }

/-- A category of 26 characters, `EquipamentoDeSobrevivencia`, typed as one
word. -/
def tipoLongo : Texto :=
  ['E', 'q', 'u', 'i', 'p', 'a', 'm', 'e', 'n', 't', 'o', 'D', 'e', 'S', 'o', 'b', 'r', 'e',
   'v', 'i', 'v', 'e', 'n', 'c', 'i', 'a']

/-- The table rows among the messages printed, each as its ID and the item
it shows. -/
def linhasImpressas : List Saida → List (Int × Item)
  | [] => []
  | Saida.linha id nome tipo quantidade peso :: resto =>
    (id, { nome := nome, tipo := tipo, peso := peso, quantidade := quantidade })
      :: linhasImpressas resto
  | _ :: resto => linhasImpressas resto

/-- The reads of a pass through the menu with the option `opcao`, which
would insert `Kit`, remove position 1 or search for `Kit`, as the option
says. -/
def passoExemplo (opcao : Option Int) : Entrada :=
  { opcao := opcao
    novo_item := default
    leitura := LeituraItem.digitado kit
    indice_remover := 0
    indice := some 1
    nome_busca := []
    busca := ['K', 'i', 't', '\n'] }

/-! ## Auxiliary lemmas -/

theorem int32_eq (x : Int) (h1 : -2147483648 ≤ x) (h2 : x ≤ 2147483647) : int32 x = x := by
  unfold int32; omega

theorem ler_natCast (l : List Item) (i : Nat) : ler l (i : Int) = l.getD i default := by
  simp [ler]

theorem escrever_natCast (l : List Item) (i : Nat) (v : Item) :
    escrever l (i : Int) v = l.set i v := by
  simp [escrever]

theorem strcmp_eq_zero_iff (a b : Texto) : strcmp a b = 0 ↔ a = b := by
  induction a generalizing b with
  | nil => cases b <;> simp [strcmp]
  | cons x xs ih =>
    cases b with
    | nil => simp [strcmp]
    | cons y ys =>
      by_cases hxy : x = y
      · simp [strcmp, hxy, ih]
      · by_cases hlt : x.toNat < y.toNat <;> simp [strcmp, hxy, hlt]

/-- The shifting loop started at `i` with `k` iterations to go moves the
entries `i+1 .. i+k` one place down and leaves the rest where it is. -/
theorem deslocarLaco_eq (n : Int) (k : Nat) : ∀ (i : Nat) (l : List Item),
    n = (i : Int) + k + 1 → n ≤ 2147483647 → i + k + 1 ≤ l.length →
    deslocarLaco n k (i : Int) l = l.take i ++ (l.drop (i + 1)).take k ++ l.drop (i + k) := by
  induction k with
  | zero => intro i l _ _ _; simp [deslocarLaco]
  | succ k ih =>
    intro i l hn hmax hlen
    have h1 : int32 (n - 1) = n - 1 := int32_eq _ (by omega) (by omega)
    have h2 : int32 ((i : Int) + 1) = ((i + 1 : Nat) : Int) := by
      rw [int32_eq _ (by omega) (by omega)]; push_cast; rfl
    have hcond : (i : Int) < n - 1 := by omega
    rw [deslocarLaco, h1, if_pos hcond, h2, ler_natCast, escrever_natCast]
    rw [ih (i + 1) _ (by push_cast; omega) hmax (by simp only [List.length_set]; omega)]
    have hi : i + 1 < l.length := by omega
    rw [List.getD_eq_getElem _ _ hi]
    have hset : l.set i l[i + 1] = l.take i ++ l[i + 1] :: l.drop (i + 1) := by
      rw [List.set_eq_take_append_cons_drop, if_pos (by omega)]
    have hlt : (l.take i).length = i := List.length_take_of_le (by omega)
    have e1 : (l.set i l[i + 1]).take (i + 1) = l.take i ++ [l[i + 1]] := by
      rw [hset, List.take_append_eq_append_take, hlt]
      simp [List.take_of_length_le, hlt]
    have e2 : (l.set i l[i + 1]).drop (i + 1 + 1) = l.drop (i + 1 + 1) :=
      List.drop_set_of_lt _ _ (by omega)
    have e3 : (l.set i l[i + 1]).drop (i + 1 + k) = l.drop (i + 1 + k) :=
      List.drop_set_of_lt _ _ (by omega)
    have e4 : (l.drop (i + 1)).take (k + 1) = l[i + 1] :: (l.drop (i + 1 + 1)).take k := by
      rw [List.drop_eq_getElem_cons hi, List.take_succ_cons]
    rw [e1, e2, e3, e4]
    have e5 : i + (k + 1) = i + 1 + k := by omega
    simp [e5]

theorem take_deslocado (l : List Item) (i k : Nat) (hlen : i + k + 1 ≤ l.length) :
    (l.take i ++ (l.drop (i + 1)).take k ++ l.drop (i + k)).take (i + k)
      = (l.take (i + k + 1)).eraseIdx i := by
  have hA : (l.take i).length = i := List.length_take_of_le (by omega)
  have hB : ((l.drop (i + 1)).take k).length = k := by
    rw [List.length_take_of_le]; simp only [List.length_drop]; omega
  have hAB : (l.take i ++ (l.drop (i + 1)).take k).length = i + k := by
    rw [List.length_append, hA, hB]
  rw [List.take_append_eq_append_take, hAB, Nat.sub_self, List.take_zero, List.append_nil,
    List.take_of_length_le (by omega)]
  rw [List.eraseIdx_eq_take_drop_succ, List.take_take, List.drop_take]
  have e1 : min i (i + k + 1) = i := by omega
  have e2 : i + k + 1 - (i + 1) = k := by omega
  rw [e1, e2]

/-- More iterations allowed than the shifting loop needs change nothing: the
loop stops on its own condition. -/
theorem deslocarLaco_folga (n : Int) (k extra : Nat) : ∀ (i : Nat) (l : List Item),
    n = (i : Int) + k + 1 → n ≤ 2147483647 →
    deslocarLaco n (k + extra) (i : Int) l = deslocarLaco n k (i : Int) l := by
  induction k with
  | zero =>
    intro i l hn hmax
    have h1 : int32 (n - 1) = n - 1 := int32_eq _ (by omega) (by omega)
    cases extra with
    | zero => rfl
    | succ e =>
      have hcond : ¬ ((i : Int) < n - 1) := by omega
      simp only [Nat.zero_add, deslocarLaco, h1, if_neg hcond]
  | succ k ih =>
    intro i l hn hmax
    have h1 : int32 (n - 1) = n - 1 := int32_eq _ (by omega) (by omega)
    have h2 : int32 ((i : Int) + 1) = ((i + 1 : Nat) : Int) := by
      rw [int32_eq _ (by omega) (by omega)]; push_cast; rfl
    have hcond : (i : Int) < n - 1 := by omega
    have e : k + 1 + extra = (k + extra) + 1 := by omega
    simp only [e, deslocarLaco, h1, if_pos hcond, h2]
    exact ih (i + 1) _ (by push_cast; omega) hmax

theorem listarLaco_eq (l : List Item) (n : Int) (k : Nat) : ∀ (i : Nat),
    n = (i : Int) + k → n ≤ 2147483646 → i + k ≤ l.length →
    listarLaco l n k (i : Int) = linhasDe ((i : Int) + 1) ((l.drop i).take k) := by
  induction k with
  | zero => intro i _ _ _; simp [listarLaco, linhasDe]
  | succ k ih =>
    intro i hn hmax hlen
    have h2 : int32 ((i : Int) + 1) = ((i + 1 : Nat) : Int) := by
      rw [int32_eq _ (by omega) (by omega)]; push_cast; rfl
    have hcond : (i : Int) < n := by omega
    have hi : i < l.length := by omega
    rw [listarLaco, if_pos hcond, h2, ler_natCast, List.getD_eq_getElem _ _ hi,
      ih (i + 1) (by push_cast; omega) hmax (by omega),
      List.drop_eq_getElem_cons hi, List.take_succ_cons, linhasDe]
    push_cast; rfl

/-- More iterations allowed than the listing loop needs change nothing. -/
theorem listarLaco_folga (l : List Item) (n : Int) (k extra : Nat) : ∀ (i : Nat),
    n = (i : Int) + k → n ≤ 2147483646 →
    listarLaco l n (k + extra) (i : Int) = listarLaco l n k (i : Int) := by
  induction k with
  | zero =>
    intro i hn hmax
    cases extra with
    | zero => rfl
    | succ e =>
      have hcond : ¬ ((i : Int) < n) := by omega
      simp only [Nat.zero_add, listarLaco, if_neg hcond]
  | succ k ih =>
    intro i hn hmax
    have h2 : int32 ((i : Int) + 1) = ((i + 1 : Nat) : Int) := by
      rw [int32_eq _ (by omega) (by omega)]; push_cast; rfl
    have hcond : (i : Int) < n := by omega
    have e : k + 1 + extra = (k + extra) + 1 := by omega
    simp only [e, listarLaco, if_pos hcond, h2, ih (i + 1) (by push_cast; omega) hmax]

theorem buscarLaco_eq (l : List Item) (n : Int) (s : Texto) (k : Nat) : ∀ (i : Nat),
    n = (i : Int) + k → n ≤ 2147483646 → i + k ≤ l.length →
    buscarLaco l n s k (i : Int) = procurar s ((i : Int) + 1) ((l.drop i).take k) := by
  induction k with
  | zero => intro i _ _ _; simp [buscarLaco, procurar]
  | succ k ih =>
    intro i hn hmax hlen
    have h2 : int32 ((i : Int) + 1) = ((i + 1 : Nat) : Int) := by
      rw [int32_eq _ (by omega) (by omega)]; push_cast; rfl
    have hcond : (i : Int) < n := by omega
    have hi : i < l.length := by omega
    rw [buscarLaco, if_pos hcond, h2, ler_natCast, List.getD_eq_getElem _ _ hi,
      ih (i + 1) (by push_cast; omega) hmax (by omega),
      List.drop_eq_getElem_cons hi, List.take_succ_cons, procurar]
    simp only [strcmp_eq_zero_iff]
    push_cast; rfl

/-- More iterations allowed than the search loop needs change nothing. -/
theorem buscarLaco_folga (l : List Item) (n : Int) (s : Texto) (k extra : Nat) : ∀ (i : Nat),
    n = (i : Int) + k → n ≤ 2147483646 →
    buscarLaco l n s (k + extra) (i : Int) = buscarLaco l n s k (i : Int) := by
  induction k with
  | zero =>
    intro i hn hmax
    cases extra with
    | zero => rfl
    | succ e =>
      have hcond : ¬ ((i : Int) < n) := by omega
      simp only [Nat.zero_add, buscarLaco, if_neg hcond]
  | succ k ih =>
    intro i hn hmax
    have h2 : int32 ((i : Int) + 1) = ((i + 1 : Nat) : Int) := by
      rw [int32_eq _ (by omega) (by omega)]; push_cast; rfl
    have hcond : (i : Int) < n := by omega
    have e : k + 1 + extra = (k + extra) + 1 := by omega
    simp only [e, buscarLaco, if_pos hcond, h2, ih (i + 1) (by push_cast; omega) hmax]

theorem cortarNovaLinha_linha (t : Texto) (h : '\n' ∉ t) : cortarNovaLinha (t ++ ['\n']) = t := by
  unfold cortarNovaLinha
  induction t with
  | nil => simp [strcspn]
  | cons c cs ih =>
    have hc : c ≠ '\n' := fun e => h (by simp [e])
    have hcs : '\n' ∉ cs := fun e => h (by simp [e])
    simp [strcspn, hc, ih hcs]

theorem cortarNovaLinha_cons (c : Char) (cs : Texto) (h : c ≠ '\n') :
    cortarNovaLinha (c :: cs) = c :: cortarNovaLinha cs := by
  simp [cortarNovaLinha, strcspn, h]

/-- A typed line that fits is read whole, and cut before its newline. -/
theorem cortarNovaLinha_fgetsLinha (t : Texto) (h : '\n' ∉ t) : ∀ (k : Nat), t.length ≤ k →
    cortarNovaLinha (fgetsLinha k (t ++ ['\n'])) = t := by
  induction t with
  | nil =>
    intro k _
    cases k with
    | zero => rfl
    | succ k => rfl
  | cons c cs ih =>
    intro k hk
    have hc : c ≠ '\n' := fun e => h (by simp [e])
    have hcs : '\n' ∉ cs := fun e => h (by simp [e])
    cases k with
    | zero => simp at hk
    | succ k =>
      have hlen : cs.length ≤ k := by simpa using hk
      show cortarNovaLinha (fgetsLinha (k + 1) (c :: (cs ++ ['\n']))) = c :: cs
      rw [fgetsLinha, if_neg hc, cortarNovaLinha_cons c _ hc, ih hcs k hlen]

theorem lerLinha_fgets_linha (buf t : Texto) (h : '\n' ∉ t) (hc : t.length < MAX_NOME) :
    lerLinha buf (fgets MAX_NOME (t ++ ['\n'])) = t := by
  have hk : t.length ≤ MAX_NOME - 1 := by unfold MAX_NOME at *; omega
  cases t with
  | nil => rfl
  | cons c cs =>
    simp only [List.cons_append, fgets, lerLinha]
    exact cortarNovaLinha_fgetsLinha (c :: cs) h _ hk

theorem takeWhile_palavra : ∀ (t : Texto), (∀ c ∈ t, isspace c = false) →
    (t ++ ['\n']).takeWhile (fun c => !isspace c) = t := by
  intro t
  induction t with
  | nil => intro _; rfl
  | cons c cs ih =>
    intro h
    have hc : isspace c = false := h c (by simp)
    have hcs : ∀ d ∈ cs, isspace d = false := fun d hd => h d (by simp [hd])
    simp only [List.cons_append, List.takeWhile_cons, hc, Bool.not_false, if_true, ih hcs]

/-- A category typed as one word and followed by the return key is converted
whole by `scanf("%s")`. -/
theorem scanfPalavra_linha (t : Texto) (h0 : t ≠ []) (hs : ∀ c ∈ t, isspace c = false) :
    scanfPalavra (t ++ ['\n']) = some t := by
  cases t with
  | nil => exact absurd rfl h0
  | cons c cs =>
    have hc : isspace c = false := hs c (by simp)
    have hd : ((c :: cs) ++ ['\n']).dropWhile isspace = (c :: cs) ++ ['\n'] := by
      simp [List.dropWhile_cons, hc]
    unfold scanfPalavra
    rw [hd, takeWhile_palavra (c :: cs) hs]

theorem itemLido_digitado (novo_item x : Item) (hd : x.digitavel) :
    itemLido novo_item (LeituraItem.digitado x) = x := by
  obtain ⟨_, hn, hc, ht0, _, hts, _⟩ := hd
  cases x
  simp only [itemLido, LeituraItem.digitado] at *
  rw [lerLinha_fgets_linha _ _ hn hc, scanfPalavra_linha _ ht0 hts]
  rfl

/-- With room left, `inserirItem` writes the item read at index
`contador_itens` and counts it. -/
theorem inserirItem_livre (l : List Item) (n : Nat) (novo_item : Item) (lt : LeituraItem)
    (hn : n < 10) :
    inserirItem { inventario := l, contador_itens := n } novo_item lt
      = ({ inventario := l.set n (itemLido novo_item lt), contador_itens := ((n + 1 : Nat) : Int) },
          [Saida.adicionado (itemLido novo_item lt).nome (itemLido novo_item lt).tipo
            (10 - ((n + 1 : Nat) : Int))]) := by
  have hc : ¬ ((n : Int) ≥ 10) := by omega
  have h1 : int32 ((n : Int) + 1) = ((n + 1 : Nat) : Int) := by
    rw [int32_eq _ (by omega) (by omega)]; push_cast; rfl
  have h2 : int32 (10 - ((n + 1 : Nat) : Int)) = 10 - ((n + 1 : Nat) : Int) :=
    int32_eq _ (by omega) (by omega)
  simp only [inserirItem, if_neg hc, h1, escrever_natCast, MAX_INVENTARIO, h2, itemLido]

theorem listarItens_eq (l : List Item) (n : Nat) (hl : l.length = 10) (hn : n ≤ 10) :
    listarItens { inventario := l, contador_itens := n }
      = ({ inventario := l, contador_itens := n }, tabela (l.take n)) := by
  unfold listarItens tabela
  by_cases h0 : n = 0
  · subst h0; simp
  · have hc : ¬ ((n : Int) = 0) := by omega
    have hne : ¬ (l.take n = []) := by
      intro e
      have := congrArg List.length e
      rw [List.length_take_of_le (by omega)] at this
      exact h0 (by simpa using this)
    simp only [if_neg hc, if_neg hne, Int.sub_zero, Int.toNat_ofNat]
    have := listarLaco_eq l (n : Int) n 0 (by simp) (by omega) (by omega)
    simp only [Nat.cast_zero, Int.zero_add, List.drop_zero] at this
    rw [this]

/-- With a position in `1 .. contador_itens`, `removerItem` closes the gap
at that position and counts one item less. -/
theorem removerItem_dentro (l : List Item) (n i : Nat) (indice_remover : Int)
    (hl : l.length = 10) (hn : n ≤ 10) (hi : i < n) :
    removerItem { inventario := l, contador_itens := n } indice_remover (some ((i : Int) + 1))
      = ({ inventario := l.take i ++ (l.drop (i + 1)).take (n - 1 - i) ++ l.drop (n - 1),
           contador_itens := ((n - 1 : Nat) : Int) },
          tabela (l.take n) ++ [Saida.removido (l.getD i default).nome]) := by
  have hc : ¬ ((n : Int) = 0) := by omega
  have h1 : int32 ((i : Int) + 1 - 1) = (i : Int) := by
    rw [int32_eq _ (by omega) (by omega)]; omega
  have h2 : int32 ((n : Int) - 1) = ((n - 1 : Nat) : Int) := by
    rw [int32_eq _ (by omega) (by omega)]; omega
  have hg : ¬ ((i : Int) < 0 ∨ (i : Int) ≥ (n : Int)) := by omega
  have hk : (((n - 1 : Nat) : Int) - (i : Int)).toNat = n - 1 - i := by omega
  simp only [removerItem, if_neg hc, scanf, h1, h2, if_neg hg, hk, ler_natCast,
    listarItens_eq l n hl hn]
  rw [deslocarLaco_eq (n : Int) (n - 1 - i) i l (by omega) (by omega) (by omega)]
  have e : i + (n - 1 - i) = n - 1 := by omega
  rw [e]

theorem take_succ_set (l : List Item) (n : Nat) (x : Item) (h : n < l.length) :
    (l.set n x).take (n + 1) = l.take n ++ [x] := by
  have hlt : (l.take n).length = n := List.length_take_of_le (by omega)
  rw [List.set_eq_take_append_cons_drop, if_pos h, List.take_append_eq_append_take, hlt]
  simp [List.take_of_length_le, hlt]

theorem procurar_primeiro (s : Texto) : ∀ (xs : List Item) (pos : Int) (i : Nat) (x : Item),
    xs[i]? = some x → x.nome = s → (∀ j, j < i → ∀ y, xs[j]? = some y → y.nome ≠ s) →
    procurar s pos xs = some (Saida.encontrado x.nome (pos + i) x.tipo x.quantidade x.peso) := by
  intro xs
  induction xs with
  | nil => intro pos i x hx; simp at hx
  | cons a as ih =>
    intro pos i x hx hs hprim
    cases i with
    | zero =>
      simp only [List.getElem?_cons_zero, Option.some.injEq] at hx
      subst hx
      simp [procurar, hs]
    | succ i =>
      have ha : a.nome ≠ s := hprim 0 (Nat.succ_pos i) a (by simp)
      simp only [List.getElem?_cons_succ] at hx
      rw [procurar, if_neg ha, ih (pos + 1) i x hx hs
        (fun j hj y hy => hprim (j + 1) (Nat.succ_lt_succ hj) y (by simpa using hy))]
      push_cast
      rw [show pos + 1 + (i : Int) = pos + ((i : Int) + 1) by omega]

theorem procurar_eq_none_iff (s : Texto) : ∀ (xs : List Item) (pos : Int),
    procurar s pos xs = none ↔ ∀ x ∈ xs, x.nome ≠ s := by
  intro xs
  induction xs with
  | nil => intro pos; simp [procurar]
  | cons a as ih =>
    intro pos
    by_cases ha : a.nome = s
    · simp [procurar, ha]
    · simp [procurar, ha, ih (pos + 1)]

theorem resultadoBusca_procurar (s : Texto) : ∀ (xs : List Item) (pos : Int) (o : Saida),
    procurar s pos xs = some o → resultadoBusca [o] ≠ none := by
  intro xs
  induction xs with
  | nil => intro pos o h; simp [procurar] at h
  | cons a as ih =>
    intro pos o h
    by_cases ha : a.nome = s
    · simp only [procurar, if_pos ha, Option.some.injEq] at h
      subst h
      simp [resultadoBusca]
    · simp only [procurar, if_neg ha] at h
      exact ih (pos + 1) o h

/-- On a non-empty inventory `buscarItem` is the linear search for the name
read, over the first `contador_itens` entries, with positions from 1. -/
theorem buscarItem_eq (l : List Item) (n : Nat) (nome_busca : Texto) (entrada : Texto)
    (hl : l.length = 10) (hn : n ≤ 10) (h0 : n ≠ 0) :
    buscarItem { inventario := l, contador_itens := n } nome_busca entrada
      = ({ inventario := l, contador_itens := n },
          match procurar (lerLinha nome_busca (fgets MAX_NOME entrada)) 1 (l.take n) with
          | some achado => [achado]
          | none => [Saida.naoEncontrado (lerLinha nome_busca (fgets MAX_NOME entrada))]) := by
  have hc : ¬ ((n : Int) = 0) := by omega
  have := buscarLaco_eq l (n : Int) (lerLinha nome_busca (fgets MAX_NOME entrada)) n 0 (by simp) (by omega)
    (by omega)
  simp only [Nat.cast_zero, Int.zero_add, List.drop_zero] at this
  simp only [buscarItem, if_neg hc, Int.sub_zero, Int.toNat_ofNat, this]
  cases procurar (lerLinha nome_busca (fgets MAX_NOME entrada)) 1 (List.take n l) <;> rfl

theorem take_set_self (l : List Item) (n : Nat) (x : Item) :
    (l.set n x).take n = l.take n := by
  rw [List.set_take, List.set_eq_of_length_le]
  simp only [List.length_take]; omega

theorem listarItens_estado (st : Estado) : (listarItens st).1 = st := by
  unfold listarItens; split <;> rfl

theorem buscarItem_estado (st : Estado) (nome_busca : Texto) (entrada : Texto) :
    (buscarItem st nome_busca entrada).1 = st := by
  unfold buscarItem
  split
  · rfl
  · dsimp only; split <;> rfl

theorem inserirItem_contador (st : Estado) (novo_item : Item) (l : LeituraItem)
    (h0 : 0 ≤ st.contador_itens) (h10 : st.contador_itens ≤ 10) :
    0 ≤ (inserirItem st novo_item l).1.contador_itens ∧
    (inserirItem st novo_item l).1.contador_itens ≤ 10 := by
  unfold inserirItem MAX_INVENTARIO
  split
  · exact ⟨h0, h10⟩
  · rename_i hc
    have : int32 (st.contador_itens + 1) = st.contador_itens + 1 :=
      int32_eq _ (by omega) (by omega)
    simp only [this]; omega

theorem removerItem_contador (st : Estado) (indice_remover : Int) (lido : Option Int)
    (h0 : 0 ≤ st.contador_itens) (h10 : st.contador_itens ≤ 10) :
    0 ≤ (removerItem st indice_remover lido).1.contador_itens ∧
    (removerItem st indice_remover lido).1.contador_itens ≤ 10 := by
  unfold removerItem
  split
  · exact ⟨h0, h10⟩
  · rename_i hc
    dsimp only
    split
    · exact ⟨h0, h10⟩
    · have : int32 (st.contador_itens - 1) = st.contador_itens - 1 :=
        int32_eq _ (by omega) (by omega)
      simp only [this]; omega

theorem iteracao_contador (m : Programa) (e : Entrada)
    (h0 : 0 ≤ m.st.contador_itens) (h10 : m.st.contador_itens ≤ 10) :
    0 ≤ (iteracao m e).1.st.contador_itens ∧ (iteracao m e).1.st.contador_itens ≤ 10 := by
  unfold iteracao
  split
  · exact ⟨h0, h10⟩
  · split
    · exact inserirItem_contador _ _ _ h0 h10
    · split
      · exact removerItem_contador _ _ _ h0 h10
      · split
        · simp only [listarItens_estado]; exact ⟨h0, h10⟩
        · split
          · simp only [buscarItem_estado]; exact ⟨h0, h10⟩
          · split <;> exact ⟨h0, h10⟩

theorem laco_contador (es : List Entrada) : ∀ (m : Programa),
    0 ≤ m.st.contador_itens → m.st.contador_itens ≤ 10 →
    0 ≤ (laco m es).1.st.contador_itens ∧ (laco m es).1.st.contador_itens ≤ 10 := by
  induction es with
  | nil => intro m h0 h10; exact ⟨h0, h10⟩
  | cons e es ih =>
    intro m h0 h10
    have hi := iteracao_contador m e h0 h10
    unfold laco
    split
    · exact ih _ hi.1 hi.2
    · exact hi

theorem inserirVarios_eq (novo_item : Item) (xs : List Item) : ∀ (l : List Item) (n : Nat),
    l.length = 10 → n + xs.length ≤ 10 → (∀ x ∈ xs, x.digitavel) →
    ∃ l', inserirVarios { inventario := l, contador_itens := n } novo_item
            (xs.map LeituraItem.digitado)
          = ({ inventario := l', contador_itens := ((n + xs.length : Nat) : Int) },
              sucessos (10 - (n : Int)) xs) ∧
      l'.length = 10 ∧ l'.take (n + xs.length) = l.take n ++ xs := by
  induction xs with
  | nil =>
    intro l n hl _ _
    exact ⟨l, by simp [inserirVarios, sucessos], hl, by simp⟩
  | cons x xs ih =>
    intro l n hl hn hx
    have hxn : x.digitavel := hx x (by simp)
    have hlen : n + 1 + xs.length ≤ 10 := by simp only [List.length_cons] at hn; omega
    obtain ⟨l', he, hl', ht⟩ := ih (l.set n x) (n + 1) (by simpa using hl) hlen
      (fun y hy => hx y (by simp [hy]))
    refine ⟨l', ?_, hl', ?_⟩
    · simp only [List.map_cons, inserirVarios,
        inserirItem_livre l n novo_item _ (show n < 10 by omega),
        itemLido_digitado novo_item x hxn, he, sucessos, List.length_cons]
      have e1 : n + 1 + xs.length = n + (xs.length + 1) := by omega
      have e2 : (10 : Int) - ((n + 1 : Nat) : Int) = 10 - (n : Int) - 1 := by omega
      rw [e1, e2]; rfl
    · have e1 : n + (x :: xs).length = n + 1 + xs.length := by
        simp only [List.length_cons]; omega
      rw [e1, ht, take_succ_set l n x (by omega)]
      simp

theorem itens_length (st : Estado) (hv : st.valido) :
    ((itens st).length : Int) = st.contador_itens := by
  obtain ⟨l, c⟩ := st
  obtain ⟨hl, h0, h10⟩ := hv
  simp only [ MAX_INVENTARIO] at hl h0 h10
  simp only [itens, List.length_take, hl]
  omega

/-- With room left, the state after `inserirItem` is again one the program
can be in and its items are the former ones followed by the item read. -/
theorem inserirItem_itens (st : Estado) (novo_item : Item) (lt : LeituraItem)
    (hv : st.valido) (hn : st.contador_itens < 10) :
    (inserirItem st novo_item lt).1.valido ∧
    (inserirItem st novo_item lt).1.contador_itens = st.contador_itens + 1 ∧
    itens (inserirItem st novo_item lt).1 = itens st ++ [itemLido novo_item lt] := by
  obtain ⟨l, c⟩ := st
  obtain ⟨hl, h0, h10⟩ := hv
  simp only [ MAX_INVENTARIO] at hl h0 h10 hn
  obtain ⟨n, rfl⟩ := Int.eq_ofNat_of_zero_le h0
  have hn10 : n < 10 := by omega
  simp only [inserirItem_livre l n novo_item lt hn10, itens, Int.toNat_ofNat, Estado.valido,
    MAX_INVENTARIO, take_succ_set l n _ (show n < l.length by omega), List.length_set]
  refine ⟨⟨hl, by omega, by omega⟩, by push_cast; rfl, trivial⟩

/-- With a position in `1 .. contador_itens`, the state after `removerItem`
is again one the program can be in and its items are the former ones with
that position erased. -/
theorem removerItem_itens (st : Estado) (indice_remover : Int) (i : Nat)
    (hv : st.valido) (hi : (i : Int) < st.contador_itens) :
    (removerItem st indice_remover (some ((i : Int) + 1))).1.valido ∧
    (removerItem st indice_remover (some ((i : Int) + 1))).1.contador_itens
      = st.contador_itens - 1 ∧
    itens (removerItem st indice_remover (some ((i : Int) + 1))).1 = (itens st).eraseIdx i := by
  obtain ⟨l, c⟩ := st
  obtain ⟨hl, h0, h10⟩ := hv
  simp only [ MAX_INVENTARIO] at hl h0 h10 hi
  obtain ⟨n, rfl⟩ := Int.eq_ofNat_of_zero_le h0
  have hin : i < n := by omega
  have hn : n ≤ 10 := by omega
  have hk : i + (n - 1 - i) = n - 1 := by omega
  have hk1 : n - 1 + 1 = n := by omega
  have htake := take_deslocado l i (n - 1 - i) (by omega)
  rw [hk, hk1] at htake
  simp only [removerItem_dentro l n i indice_remover hl hn hin, itens, Int.toNat_ofNat, htake,
    Estado.valido, MAX_INVENTARIO]
  refine ⟨⟨?_, by omega, by omega⟩, by omega, trivial⟩
  simp only [List.length_append, List.length_take, List.length_drop]; omega

/-- When the linear search over the items finds something, `buscarItem`
prints exactly that. -/
theorem buscarItem_achado (st : Estado) (nome_busca entrada : Texto) (o : Saida)
    (hv : st.valido)
    (h : procurar (lerLinha nome_busca (fgets MAX_NOME entrada)) 1 (itens st) = some o) :
    buscarItem st nome_busca entrada = (st, [o]) := by
  obtain ⟨l, c⟩ := st
  obtain ⟨hl, h0, h10⟩ := hv
  simp only [ MAX_INVENTARIO] at hl h0 h10
  obtain ⟨n, rfl⟩ := Int.eq_ofNat_of_zero_le h0
  simp only [itens, Int.toNat_ofNat] at h
  have hn0 : n ≠ 0 := by
    rintro rfl
    simp [procurar] at h
  rw [buscarItem_eq l n nome_busca entrada hl (by omega) hn0, h]

/-- When the linear search over the items finds nothing, `buscarItem` prints
the empty-inventory warning on an empty inventory and the not-found message
otherwise. -/
theorem buscarItem_nenhum (st : Estado) (nome_busca entrada : Texto) (hv : st.valido)
    (h : procurar (lerLinha nome_busca (fgets MAX_NOME entrada)) 1 (itens st) = none) :
    (st.contador_itens = 0 → buscarItem st nome_busca entrada = (st, [Saida.nadaABuscar])) ∧
    (st.contador_itens ≠ 0 → buscarItem st nome_busca entrada
      = (st, [Saida.naoEncontrado (lerLinha nome_busca (fgets MAX_NOME entrada))])) := by
  obtain ⟨l, c⟩ := st
  obtain ⟨hl, h0, h10⟩ := hv
  simp only [ MAX_INVENTARIO] at hl h0 h10
  obtain ⟨n, rfl⟩ := Int.eq_ofNat_of_zero_le h0
  simp only [itens, Int.toNat_ofNat] at h
  refine ⟨?_, ?_⟩
  · intro hc
    simp only [buscarItem, if_pos hc]
  · intro hc
    have hc' : ¬ ((n : Int) = 0) := hc
    have hn0 : n ≠ 0 := by omega
    rw [buscarItem_eq l n nome_busca entrada hl (by omega) hn0, h]

theorem linhasImpressas_linhasDe : ∀ (xs : List Item) (id : Int),
    (linhasImpressas (linhasDe id xs)).length = xs.length ∧
    ∀ (i : Nat) (x : Item), xs[i]? = some x →
      (linhasImpressas (linhasDe id xs))[i]? = some (id + (i : Int), x) := by
  intro xs
  induction xs with
  | nil => intro id; exact ⟨rfl, fun i x h => by simp at h⟩
  | cons a as ih =>
    intro id
    refine ⟨by simp [linhasDe, linhasImpressas, (ih (id + 1)).1], ?_⟩
    intro i x h
    cases i with
    | zero =>
      simp only [List.getElem?_cons_zero, Option.some.injEq] at h
      subst h
      simp [linhasDe, linhasImpressas]
    | succ i =>
      simp only [List.getElem?_cons_succ] at h
      simp only [linhasDe, linhasImpressas, List.getElem?_cons_succ, (ih (id + 1)).2 i x h]
      push_cast
      rw [show id + 1 + (i : Int) = id + ((i : Int) + 1) by omega]

theorem fgetsLinha_length : ∀ (k : Nat) (e : Texto), (fgetsLinha k e).length ≤ k := by
  intro k
  induction k with
  | zero => intro e; simp [fgetsLinha]
  | succ k ih =>
    intro e
    cases e with
    | nil => simp [fgetsLinha]
    | cons c cs =>
      by_cases hc : c = '\n'
      · simp [fgetsLinha, hc]
      · simp only [fgetsLinha, if_neg hc, List.length_cons]
        exact Nat.succ_le_succ (ih cs)

theorem cortarNovaLinha_length (t : Texto) : (cortarNovaLinha t).length ≤ t.length := by
  unfold cortarNovaLinha
  rw [List.length_take]
  exact Nat.min_le_right _ _

/-- What the read of a name leaves in the buffer fits it, unless `fgets`
found no input and the buffer keeps what it held. -/
theorem lerLinha_fgets_length (buf entrada : Texto) :
    (lerLinha buf (fgets MAX_NOME entrada)).length < MAX_NOME ∨
    (entrada = [] ∧ lerLinha buf (fgets MAX_NOME entrada) = buf) := by
  cases entrada with
  | nil => exact Or.inr ⟨rfl, rfl⟩
  | cons c cs =>
    left
    simp only [fgets, lerLinha]
    have h1 := cortarNovaLinha_length (fgetsLinha (MAX_NOME - 1) (c :: cs))
    have h2 := fgetsLinha_length (MAX_NOME - 1) (c :: cs)
    unfold MAX_NOME at *
    omega

/-! ## The claims -/

/-- C1: on an inventory of `n` items (`1 ≤ n ≤ 10`), `removerItem` with a
position `p` in `1 .. n` succeeds: after the listing it prints the removal
message with the name of the item that stood at position `p`, the counter
becomes `n - 1`, and the items are the original sequence with its `p`-th
element deleted, the others in their order. -/
theorem removerItem_posicao_valida (st : Estado) (indice_remover p : Int)
    (hv : st.valido) (hp1 : 1 ≤ p) (hpn : p ≤ st.contador_itens) :
    (itens st)[(p - 1).toNat]? = some (ler st.inventario (p - 1)) ∧
    (removerItem st indice_remover (some p)).2
      = tabela (itens st) ++ [Saida.removido (ler st.inventario (p - 1)).nome] ∧
    (removerItem st indice_remover (some p)).1.contador_itens = st.contador_itens - 1 ∧
    (itens (removerItem st indice_remover (some p)).1).length + 1 = (itens st).length ∧
    itens (removerItem st indice_remover (some p)).1 = (itens st).eraseIdx (p - 1).toNat ∧
    (removerItem st indice_remover (some p)).1.valido := by
  obtain ⟨l, c⟩ := st
  obtain ⟨hl, h0, h10⟩ := hv
  simp only [ MAX_INVENTARIO] at hl h0 h10 hpn
  obtain ⟨n, rfl⟩ := Int.eq_ofNat_of_zero_le h0
  obtain ⟨i, hi⟩ := Int.eq_ofNat_of_zero_le (show 0 ≤ p - 1 by omega)
  have hp : p = (i : Int) + 1 := by omega
  subst hp
  have hin : i < n := by omega
  have hn : n ≤ 10 := by omega
  have e1 : (i : Int) + 1 - 1 = (i : Int) := by omega
  have hk : i + (n - 1 - i) = n - 1 := by omega
  have hk1 : n - 1 + 1 = n := by omega
  have htake := take_deslocado l i (n - 1 - i) (by omega)
  rw [hk, hk1] at htake
  simp only [removerItem_dentro l n i indice_remover hl hn hin, itens, e1, ler_natCast,
    Int.toNat_ofNat, htake, Estado.valido, MAX_INVENTARIO]
  refine ⟨?_, trivial, by omega, ?_, trivial, ?_, by omega, by omega⟩
  · rw [List.getElem?_take_of_lt hin, List.getD_eq_getElem _ _ (by omega),
      List.getElem?_eq_getElem (by omega)]
  · have hlt : (List.take n l).length = n := List.length_take_of_le (by omega)
    rw [List.length_eraseIdx, hlt, if_pos hin]; omega
  · simp only [List.length_append, List.length_take, List.length_drop]; omega

/-- C1, the specification's example: removing position 1 from `[Faca, Kit]`
reports `Faca` and leaves `[Kit]`. -/
theorem removerItem_posicao_valida_exemplo :
    ((mochilaDe [faca, kit]).valido ∧ (1 : Int) ≤ 1 ∧
      (1 : Int) ≤ (mochilaDe [faca, kit]).contador_itens) ∧
    (removerItem (mochilaDe [faca, kit]) 0 (some 1)).2
      = [Saida.linha 1 faca.nome faca.tipo 1 0x3F000000,
         Saida.linha 2 kit.nome kit.tipo 2 0x3F99999A, Saida.removido faca.nome] ∧
    itens (removerItem (mochilaDe [faca, kit]) 0 (some 1)).1 = [kit] ∧
    ((itens (mochilaDe [faca, kit]))[((1 : Int) - 1).toNat]?
        = some (ler (mochilaDe [faca, kit]).inventario (1 - 1)) ∧
      (removerItem (mochilaDe [faca, kit]) 0 (some 1)).2
        = tabela (itens (mochilaDe [faca, kit]))
          ++ [Saida.removido (ler (mochilaDe [faca, kit]).inventario (1 - 1)).nome] ∧
      (removerItem (mochilaDe [faca, kit]) 0 (some 1)).1.contador_itens
        = (mochilaDe [faca, kit]).contador_itens - 1 ∧
      (itens (removerItem (mochilaDe [faca, kit]) 0 (some 1)).1).length + 1
        = (itens (mochilaDe [faca, kit])).length ∧
      itens (removerItem (mochilaDe [faca, kit]) 0 (some 1)).1
        = (itens (mochilaDe [faca, kit])).eraseIdx ((1 : Int) - 1).toNat ∧
      (removerItem (mochilaDe [faca, kit]) 0 (some 1)).1.valido) :=
  ⟨⟨by decide, by decide, by decide⟩, by decide, by decide,
    removerItem_posicao_valida (mochilaDe [faca, kit]) 0 1 (by decide) (by decide) (by decide)⟩

/-- C3: on an inventory of exactly 10 items, `inserirItem` prints the
full-inventory message whatever would be typed, and the state (counter and
all ten stored items) is returned as it was. -/
theorem inserirItem_cheia (st : Estado) (novo_item : Item) (l : LeituraItem)
    (h : st.contador_itens = 10) :
    inserirItem st novo_item l = (st, [Saida.mochilaCheia 10]) ∧
    (inserirItem st novo_item l).1.contador_itens = 10 ∧
    itens (inserirItem st novo_item l).1 = itens st := by
  have hc : st.contador_itens ≥ MAX_INVENTARIO := by rw [h]; decide
  have he : inserirItem st novo_item l = (st, [Saida.mochilaCheia 10]) := by
    rw [inserirItem, if_pos hc]; rfl
  rw [he]
  exact ⟨rfl, h, rfl⟩

/-- C3 at an instance: an eleventh item is refused and ten stay stored. -/
theorem inserirItem_cheia_exemplo :
    (mochilaDe (List.replicate 10 faca)).contador_itens = 10 ∧
    inserirItem (mochilaDe (List.replicate 10 faca)) default (LeituraItem.digitado kit)
      = (mochilaDe (List.replicate 10 faca), [Saida.mochilaCheia 10]) ∧
    (itens (mochilaDe (List.replicate 10 faca))).length = 10 :=
  ⟨by decide,
    (inserirItem_cheia (mochilaDe (List.replicate 10 faca)) default (LeituraItem.digitado kit)
      (by decide)).1, by decide⟩

/-- C4: on an inventory of `n` items (`0 ≤ n ≤ 10`), `removerItem` with a
32-bit position `p` outside `1 .. n` (0, `n + 1`, negative, `INT_MIN` whose
decrement wraps) returns the state as it was; for `n = 0` it prints the
empty-inventory warning whatever is read, for `n > 0` the listing followed by
the invalid-index error. -/
theorem removerItem_posicao_invalida (st : Estado) (indice_remover p : Int)
    (hv : st.valido) (hmin : INT_MIN ≤ p) (hmax : p ≤ INT_MAX)
    (hfora : ¬ (1 ≤ p ∧ p ≤ st.contador_itens)) :
    (removerItem st indice_remover (some p)).1 = st ∧
    (st.contador_itens = 0 →
      ∀ lido, removerItem st indice_remover lido = (st, [Saida.nadaARemover])) ∧
    (st.contador_itens ≠ 0 →
      (removerItem st indice_remover (some p)).2
        = tabela (itens st) ++ [Saida.indiceInvalido]) := by
  obtain ⟨l, c⟩ := st
  obtain ⟨hl, h0, h10⟩ := hv
  simp only [INT_MIN, INT_MAX, MAX_INVENTARIO] at hl h0 h10 hfora hmin hmax
  obtain ⟨n, rfl⟩ := Int.eq_ofNat_of_zero_le h0
  have hn : n ≤ 10 := by omega
  have hg : int32 (p - 1) < 0 ∨ int32 (p - 1) ≥ (n : Int) := by
    unfold int32; omega
  refine ⟨?_, ?_, ?_⟩
  · by_cases hc : (n : Int) = 0
    · simp only [removerItem, if_pos hc]
    · simp only [removerItem, if_neg hc, scanf, if_pos hg]
  · intro hc lido
    simp only [removerItem, if_pos hc]
  · intro hc
    simp only [removerItem, if_neg hc, scanf, if_pos hg, listarItens_eq l n hl hn, itens,
      Int.toNat_ofNat]

/-- C4 at an instance: position `INT_MIN` on the inventory `[Faca, Kit]`. -/
theorem removerItem_posicao_invalida_exemplo :
    ((mochilaDe [faca, kit]).valido ∧ INT_MIN ≤ INT_MIN ∧ INT_MIN ≤ INT_MAX ∧
      ¬ (1 ≤ INT_MIN ∧ INT_MIN ≤ (mochilaDe [faca, kit]).contador_itens)) ∧
    (removerItem (mochilaDe [faca, kit]) 0 (some INT_MIN)).1 = mochilaDe [faca, kit] :=
  ⟨⟨by decide, by decide, by decide, by decide⟩,
    (removerItem_posicao_invalida (mochilaDe [faca, kit]) 0 INT_MIN (by decide) (by decide)
      (by decide) (by decide)).1⟩

/-- C5: when some stored item has the name searched for, `buscarItem` reports
the first such item only: if `x` stands at the zero-based index `i` of the
inventory, has the name read, and no item before it has that name, the output
is the found message with position `i + 1` and the name, category, quantity
and weight of `x`, and the state is returned as it was. -/
theorem buscarItem_primeira_ocorrencia (st : Estado) (nome_busca : Texto)
    (entrada : Texto) (i : Nat) (x : Item) (hv : st.valido)
    (hx : (itens st)[i]? = some x) (hs : x.nome = lerLinha nome_busca (fgets MAX_NOME entrada))
    (hprim : ∀ j, j < i → ∀ y, (itens st)[j]? = some y → y.nome ≠ lerLinha nome_busca (fgets MAX_NOME entrada)) :
    buscarItem st nome_busca entrada
      = (st, [Saida.encontrado x.nome ((i : Int) + 1) x.tipo x.quantidade x.peso]) ∧
    resultadoBusca (buscarItem st nome_busca entrada).2 = some ((i : Int) + 1, x) := by
  obtain ⟨l, c⟩ := st
  obtain ⟨hl, h0, h10⟩ := hv
  simp only [ MAX_INVENTARIO] at hl h0 h10
  obtain ⟨n, rfl⟩ := Int.eq_ofNat_of_zero_le h0
  simp only [itens, Int.toNat_ofNat] at hx hprim
  have hn0 : n ≠ 0 := by
    rintro rfl
    simp at hx
  have hp := procurar_primeiro (lerLinha nome_busca (fgets MAX_NOME entrada)) (l.take n) 1 i x hx hs hprim
  rw [buscarItem_eq l n nome_busca entrada hl (by omega) hn0, hp]
  rw [show (1 : Int) + (i : Int) = (i : Int) + 1 by omega]
  exact ⟨rfl, rfl⟩

/-- C5 at an instance: searching `Kit` in `[Faca, Kit, Kit]` reports
position 2, never position 3. -/
theorem buscarItem_primeira_ocorrencia_exemplo :
    ((mochilaDe [faca, kit, { kit with quantidade := 7 }]).valido ∧
      (itens (mochilaDe [faca, kit, { kit with quantidade := 7 }]))[1]? = some kit ∧
      kit.nome = lerLinha [] (fgets MAX_NOME ['K', 'i', 't', '\n']) ∧
      ∀ j, j < 1 → ∀ y, (itens (mochilaDe [faca, kit, { kit with quantidade := 7 }]))[j]? = some y →
        y.nome ≠ lerLinha [] (fgets MAX_NOME ['K', 'i', 't', '\n'])) ∧
    resultadoBusca
        (buscarItem (mochilaDe [faca, kit, { kit with quantidade := 7 }]) []
          ['K', 'i', 't', '\n']).2
      = some (2, kit) :=
  have hprim : ∀ j, j < 1 → ∀ y,
      (itens (mochilaDe [faca, kit, { kit with quantidade := 7 }]))[j]? = some y →
        y.nome ≠ lerLinha [] (fgets MAX_NOME ['K', 'i', 't', '\n']) := by
    intro j hj y hy
    have hj0 : j = 0 := by omega
    subst hj0
    have hy2 : y = faca := by
      have h0 : (itens (mochilaDe [faca, kit, { kit with quantidade := 7 }]))[0]? = some faca := by
        decide
      rw [h0] at hy
      exact (Option.some.inj hy).symm
    subst hy2
    decide
  ⟨⟨by decide, by decide, by decide, hprim⟩,
    (buscarItem_primeira_ocorrencia (mochilaDe [faca, kit, { kit with quantidade := 7 }]) []
      ['K', 'i', 't', '\n'] 1 kit (by decide) (by decide) (by decide) hprim).2⟩

/-- C6: `buscarItem` reports no item exactly when none of the first
`contador_itens` items has a name equal, character for character, to the name
read; on an empty inventory it prints the empty-inventory warning, otherwise,
with no such item, the not-found message; in every case the state (counter
and items) is returned as it was. -/
theorem buscarItem_nao_encontrado (st : Estado) (nome_busca : Texto) (entrada : Texto)
    (hv : st.valido) :
    (resultadoBusca (buscarItem st nome_busca entrada).2 = none
      ↔ ∀ x ∈ itens st, x.nome ≠ lerLinha nome_busca (fgets MAX_NOME entrada)) ∧
    (st.contador_itens = 0 → (buscarItem st nome_busca entrada).2 = [Saida.nadaABuscar]) ∧
    (st.contador_itens ≠ 0 → (∀ x ∈ itens st, x.nome ≠ lerLinha nome_busca (fgets MAX_NOME entrada)) →
      (buscarItem st nome_busca entrada).2 = [Saida.naoEncontrado (lerLinha nome_busca (fgets MAX_NOME entrada))]) ∧
    (buscarItem st nome_busca entrada).1 = st := by
  obtain ⟨l, c⟩ := st
  obtain ⟨hl, h0, h10⟩ := hv
  simp only [ MAX_INVENTARIO] at hl h0 h10
  obtain ⟨n, rfl⟩ := Int.eq_ofNat_of_zero_le h0
  simp only [itens, Int.toNat_ofNat]
  by_cases hn0 : n = 0
  · subst hn0
    simp [buscarItem, resultadoBusca]
  · have hc : ¬ ((n : Int) = 0) := by omega
    rw [buscarItem_eq l n nome_busca entrada hl (by omega) hn0]
    cases hp : procurar (lerLinha nome_busca (fgets MAX_NOME entrada)) 1 (List.take n l) with
    | none =>
      have hnone := (procurar_eq_none_iff _ _ _).1 hp
      simp only [resultadoBusca, true_iff]
      exact ⟨hnone, fun h => absurd h hc, fun _ _ => trivial, trivial⟩
    | some o =>
      have hne := resultadoBusca_procurar _ _ _ _ hp
      have hsome : ¬ (∀ x ∈ List.take n l, x.nome ≠ lerLinha nome_busca (fgets MAX_NOME entrada)) := by
        intro hall
        have := (procurar_eq_none_iff _ _ 1).2 hall
        rw [hp] at this
        exact Option.noConfusion this
      exact ⟨⟨fun h => absurd h hne, fun h => absurd h hsome⟩, fun h => absurd h hc,
        fun _ h => absurd h hsome, rfl⟩

/-- C6 at an instance: the search is case-sensitive, `faca` is not found in
`[Faca, Kit]`. -/
theorem buscarItem_nao_encontrado_exemplo :
    (mochilaDe [faca, kit]).valido ∧
    (buscarItem (mochilaDe [faca, kit]) [] ['f', 'a', 'c', 'a', '\n']).2
      = [Saida.naoEncontrado ['f', 'a', 'c', 'a']] ∧
    (resultadoBusca (buscarItem (mochilaDe [faca, kit]) [] ['f', 'a', 'c', 'a', '\n']).2
        = none
      ↔ ∀ x ∈ itens (mochilaDe [faca, kit]), x.nome ≠ lerLinha [] (fgets MAX_NOME ['f', 'a', 'c', 'a', '\n'])) :=
  ⟨by decide, by decide,
    (buscarItem_nao_encontrado (mochilaDe [faca, kit]) [] ['f', 'a', 'c', 'a', '\n']
      (by decide)).1⟩

/-- C7: round trip. On an inventory of `n < 10` items, `inserirItem` stores the
item read at position `n + 1`, and `removerItem` with position `n + 1` then
gives back the counter `n`, the original items in their order, and the
original listing. -/
theorem inserir_remover_restaura (st : Estado) (novo_item : Item) (l : LeituraItem)
    (indice_remover : Int) (hv : st.valido) (hn : st.contador_itens < MAX_INVENTARIO) :
    (itens (inserirItem st novo_item l).1)[st.contador_itens.toNat]?
      = some (itemLido novo_item l) ∧
    (removerItem (inserirItem st novo_item l).1 indice_remover
        (some (st.contador_itens + 1))).1.contador_itens = st.contador_itens ∧
    itens (removerItem (inserirItem st novo_item l).1 indice_remover
        (some (st.contador_itens + 1))).1 = itens st ∧
    (listarItens (removerItem (inserirItem st novo_item l).1 indice_remover
        (some (st.contador_itens + 1))).1).2 = (listarItens st).2 := by
  obtain ⟨l0, c⟩ := st
  obtain ⟨hl, h0, h10⟩ := hv
  simp only [ MAX_INVENTARIO] at hl h0 h10 hn
  obtain ⟨n, rfl⟩ := Int.eq_ofNat_of_zero_le h0
  have hn10 : n < 10 := by omega
  have hl1 : (l0.set n (itemLido novo_item l)).length = 10 := by simpa using hl
  have hfinal : (List.take n (l0.set n (itemLido novo_item l))
      ++ List.take (n + 1 - 1 - n) (List.drop (n + 1) (l0.set n (itemLido novo_item l)))
      ++ List.drop (n + 1 - 1) (l0.set n (itemLido novo_item l)))
        = l0.set n (itemLido novo_item l) := by
    simp
  have hcast : (((n + 1 : Nat) : Int)) = (n : Int) + 1 := by push_cast; rfl
  have hrem := removerItem_dentro _ (n + 1) n indice_remover hl1 (by omega) (by omega)
  rw [hfinal, hcast] at hrem
  rw [inserirItem_livre l0 n novo_item l hn10]
  dsimp only
  rw [hcast, hrem, ← hcast]
  have hsub : n + 1 - 1 = n := by omega
  simp only [itens, Int.toNat_ofNat, hsub, take_set_self, listarItens_eq _ n hl1 (by omega),
    listarItens_eq _ n hl (by omega), take_succ_set l0 n _ (by omega), and_true, true_and]
  have hlt : (List.take n l0).length = n := List.length_take_of_le (by omega)
  rw [List.getElem?_append_right (by omega), hlt, Nat.sub_self]
  rfl

/-- C7 at an instance: typing `Kit` into `[Faca]` and removing position 2
gives `[Faca]` back. -/
theorem inserir_remover_restaura_exemplo :
    ((mochilaDe [faca]).valido ∧ (mochilaDe [faca]).contador_itens < MAX_INVENTARIO) ∧
    itens (inserirItem (mochilaDe [faca]) default (LeituraItem.digitado kit)).1 = [faca, kit] ∧
    itens (removerItem (inserirItem (mochilaDe [faca]) default (LeituraItem.digitado kit)).1 0
        (some ((mochilaDe [faca]).contador_itens + 1))).1 = itens (mochilaDe [faca]) :=
  ⟨⟨by decide, by decide⟩, by decide,
    (inserir_remover_restaura (mochilaDe [faca]) default (LeituraItem.digitado kit) 0
      (by decide) (by decide)).2.2.1⟩

/-- C8: started with `contador_itens = 0`, whatever the array and `opcao`
hold at first and whatever the passes through the menu read (insert, remove
with any position read or none, list, search, exit, unrecognised option,
unreadable option), the state `main` reaches has `0 ≤ contador_itens ≤ 10`. -/
theorem main_contador_limitado (mochila : List Item) (opcao : Int) (es : List Entrada) :
    0 ≤ (main mochila opcao es).1.st.contador_itens ∧
    (main mochila opcao es).1.st.contador_itens ≤ MAX_INVENTARIO :=
  laco_contador es _ (Int.le_refl 0) (show (0 : Int) ≤ 10 by decide)

/-- C10, where the code departs from it: a weight and a quantity that do not
parse (`scanf` converts nothing) do not stop `inserirItem`: on the empty
inventory the counter becomes 1 and the item stored carries whatever
`novo_item` held in those fields; likewise `removerItem`, when the position
does not parse, goes on with whatever `indice_remover` held and, when that
is 1, removes the first item of `[Faca, Kit]`.  Only the read of the menu
option is checked: when it does not parse the pass leaves the state as it
was. -/
theorem leitura_numerica_falha (novo_item : Item) (m : Programa) (e : Entrada) :
    itens (mochilaDe []) = [] ∧
    (inserirItem (mochilaDe []) novo_item
        { nome := ['F', 'a', 'c', 'a', '\n'], tipo := some ['A', 'r', 'm', 'a'],
          peso := none, quantidade := none }).1.contador_itens = 1 ∧
    itens (inserirItem (mochilaDe []) novo_item
        { nome := ['F', 'a', 'c', 'a', '\n'], tipo := some ['A', 'r', 'm', 'a'],
          peso := none, quantidade := none }).1
      = [{ nome := ['F', 'a', 'c', 'a'], tipo := ['A', 'r', 'm', 'a'],
           peso := novo_item.peso, quantidade := novo_item.quantidade }] ∧
    itens (removerItem (mochilaDe [faca, kit]) 1 none).1 = [kit] ∧
    (iteracao m { e with opcao := none }).1 = m := by
  have h := inserirItem_livre (List.replicate 10 default) 0 novo_item
    { nome := ['F', 'a', 'c', 'a', '\n'], tipo := some ['A', 'r', 'm', 'a'],
      peso := none, quantidade := none } (by decide)
  have hm : mochilaDe [] = { inventario := List.replicate 10 default, contador_itens := ((0 : Nat) : Int) } := by
    decide
  have hn : lerLinha novo_item.nome (fgets MAX_NOME ['F', 'a', 'c', 'a', '\n'])
      = ['F', 'a', 'c', 'a'] := rfl
  refine ⟨by decide, ?_, ?_, by decide, rfl⟩
  · rw [hm, h]; rfl
  · rw [hm, h]
    simp [itens, itemLido, scanf, hn]

/-- C12: on an inventory of `n` items (`0 ≤ n ≤ 10`) `listarItens` returns
the state as it was and prints the empty-inventory line when `n = 0`,
otherwise exactly `n` rows: row `i` (from 0) carries the ID `i + 1` and the
item stored at index `i`, and there is no row for an index from `n` on. -/
theorem listarItens_linhas (st : Estado) (hv : st.valido) :
    (listarItens st).1 = st ∧
    (listarItens st).2 = tabela (itens st) ∧
    (st.contador_itens = 0 → (listarItens st).2 = [Saida.mochilaVazia]) ∧
    ((linhasImpressas (listarItens st).2).length : Int) = st.contador_itens ∧
    (∀ i : Nat, (i : Int) < st.contador_itens →
      (linhasImpressas (listarItens st).2)[i]? = some ((i : Int) + 1, ler st.inventario i)) ∧
    (∀ i : Nat, st.contador_itens ≤ (i : Int) →
      (linhasImpressas (listarItens st).2)[i]? = none) := by
  have hlen := itens_length st hv
  obtain ⟨l, c⟩ := st
  obtain ⟨hl, h0, h10⟩ := hv
  simp only [ MAX_INVENTARIO] at hl h0 h10
  obtain ⟨n, rfl⟩ := Int.eq_ofNat_of_zero_le h0
  have hn : n ≤ 10 := by omega
  simp only [listarItens_eq l n hl hn, itens, Int.toNat_ofNat, ler_natCast, true_and] at hlen ⊢
  by_cases hn0 : n = 0
  · subst hn0
    simp [tabela, linhasImpressas]
  · have hne : ¬ (l.take n = []) := by
      intro e
      rw [e] at hlen
      simp at hlen
      omega
    have hrows := linhasImpressas_linhasDe (l.take n) 1
    simp only [tabela, if_neg hne]
    refine ⟨fun h => absurd h (by omega), ?_, ?_, ?_⟩
    · rw [hrows.1]; exact hlen
    · intro i hi
      have hin : i < n := by omega
      have hget : (l.take n)[i]? = some (l.getD i default) := by
        rw [List.getElem?_take_of_lt hin, List.getD_eq_getElem _ _ (by omega),
          List.getElem?_eq_getElem (by omega)]
      rw [hrows.2 i _ hget, show (1 : Int) + (i : Int) = (i : Int) + 1 by omega]
    · intro i hi
      apply List.getElem?_eq_none
      rw [hrows.1]
      omega

/-- C12 at an instance: `[Faca, Kit]` is listed as the rows 1 and 2, and the
empty inventory as no row. -/
theorem listarItens_linhas_exemplo :
    (mochilaDe [faca, kit]).valido ∧
    linhasImpressas (listarItens (mochilaDe [faca, kit])).2 = [(1, faca), (2, kit)] ∧
    linhasImpressas (listarItens (mochilaDe [])).2 = [] ∧
    (listarItens (mochilaDe [faca, kit])).1 = mochilaDe [faca, kit] :=
  ⟨by decide, by decide, by decide,
    (listarItens_linhas (mochilaDe [faca, kit]) (by decide)).1⟩

/-- C13, where the code departs from it: the name `inserirItem` stores has at
most 49 characters whenever `fgets` finds input (with none, the name is
whatever `novo_item` held), but the category is stored as `scanf("%s")`
converts it, with no limit: the 26 characters of `tipoLongo` typed as the
category are all stored, seven more than `tipo[20]` holds with its NUL. -/
theorem inserirItem_limites_dos_campos (novo_item : Item) (l : LeituraItem) :
    itens (inserirItem (mochilaDe []) novo_item l).1 = [itemLido novo_item l] ∧
    ((itemLido novo_item l).nome.length < MAX_NOME ∨
      (l.nome = [] ∧ (itemLido novo_item l).nome = novo_item.nome)) ∧
    itens (inserirItem (mochilaDe []) novo_item
        { nome := ['K', 'i', 't', '\n'], tipo := some tipoLongo, peso := some 0x3F99999A,
          quantidade := some 2 }).1
      = [{ nome := ['K', 'i', 't'], tipo := tipoLongo, peso := 0x3F99999A, quantidade := 2 }] ∧
    tipoLongo.length = 26 ∧ ¬ (tipoLongo.length < MAX_TIPO) := by
  have hm : mochilaDe []
      = { inventario := List.replicate 10 default, contador_itens := ((0 : Nat) : Int) } := by
    decide
  have h : ∀ lt, itens (inserirItem (mochilaDe []) novo_item lt).1 = [itemLido novo_item lt] := by
    intro lt
    rw [hm, inserirItem_livre (List.replicate 10 default) 0 novo_item lt (by decide)]
    simp [itens]
  refine ⟨h l, lerLinha_fgets_length novo_item.nome l.nome, ?_, by decide, by decide⟩
  rw [h]
  rfl

/-- C14: let no item before index `i` be named `s`, and `removerItem` be
called with position `i + 1` (so also when the item there is the first one
named `s`).  If no item after it is named `s`, a search for `s` then reports
no item (the not-found message, or the empty-inventory warning when the
removed item was the only one).  If the next item named `s` stands at index
`j` (position `j + 1`), the search reports that item at position `j`. -/
theorem remover_depois_buscar (st : Estado) (indice_remover : Int)
    (nome_busca entrada : Texto) (i : Nat) (x : Item) (hv : st.valido)
    (hx : (itens st)[i]? = some x)
    (hantes : ∀ k, k < i → ∀ z, (itens st)[k]? = some z →
      z.nome ≠ lerLinha nome_busca (fgets MAX_NOME entrada)) :
    ((∀ k, i < k → ∀ z, (itens st)[k]? = some z →
        z.nome ≠ lerLinha nome_busca (fgets MAX_NOME entrada)) →
      resultadoBusca (buscarItem (removerItem st indice_remover (some ((i : Int) + 1))).1
        nome_busca entrada).2 = none ∧
      (st.contador_itens = 1 →
        (buscarItem (removerItem st indice_remover (some ((i : Int) + 1))).1
          nome_busca entrada).2 = [Saida.nadaABuscar]) ∧
      (st.contador_itens ≠ 1 →
        (buscarItem (removerItem st indice_remover (some ((i : Int) + 1))).1
          nome_busca entrada).2
          = [Saida.naoEncontrado (lerLinha nome_busca (fgets MAX_NOME entrada))])) ∧
    (∀ (j : Nat) (y : Item), i < j → (itens st)[j]? = some y →
      y.nome = lerLinha nome_busca (fgets MAX_NOME entrada) →
      (∀ k, i < k → k < j → ∀ z, (itens st)[k]? = some z →
        z.nome ≠ lerLinha nome_busca (fgets MAX_NOME entrada)) →
      (buscarItem (removerItem st indice_remover (some ((i : Int) + 1))).1
          nome_busca entrada).2
        = [Saida.encontrado y.nome (j : Int) y.tipo y.quantidade y.peso] ∧
      resultadoBusca (buscarItem (removerItem st indice_remover (some ((i : Int) + 1))).1
          nome_busca entrada).2 = some ((j : Int), y)) := by
  have hlen := itens_length st hv
  have hil : i < (itens st).length := by
    rcases List.getElem?_eq_some.1 hx with ⟨h, _⟩
    exact h
  have hi : (i : Int) < st.contador_itens := by omega
  obtain ⟨hv1, hcont, hit⟩ := removerItem_itens st indice_remover i hv hi
  refine ⟨?_, ?_⟩
  · intro hdepois
    have hnone : procurar (lerLinha nome_busca (fgets MAX_NOME entrada)) 1
        (itens (removerItem st indice_remover (some ((i : Int) + 1))).1) = none := by
      rw [hit, procurar_eq_none_iff]
      intro z hz
      obtain ⟨k, hk, hkz⟩ := List.mem_eraseIdx_iff_getElem?.1 hz
      rcases Nat.lt_or_gt_of_ne hk with hlt | hgt
      · exact hantes k hlt z hkz
      · exact hdepois k hgt z hkz
    obtain ⟨hvazia, hnao⟩ := buscarItem_nenhum _ nome_busca entrada hv1 hnone
    by_cases h1 : st.contador_itens = 1
    · have h0 : (removerItem st indice_remover (some ((i : Int) + 1))).1.contador_itens = 0 := by
        omega
      rw [hvazia h0]
      exact ⟨rfl, fun _ => rfl, fun h => absurd h1 h⟩
    · have h0 : (removerItem st indice_remover (some ((i : Int) + 1))).1.contador_itens ≠ 0 := by
        omega
      rw [hnao h0]
      exact ⟨rfl, fun h => absurd h h1, fun _ => rfl⟩
  · intro j y hij hy hys hentre
    have hj1 : j - 1 + 1 = j := by omega
    have hget : ((itens st).eraseIdx i)[j - 1]? = some y := by
      rw [List.getElem?_eraseIdx_of_ge _ _ _ (by omega), hj1]
      exact hy
    have hp := procurar_primeiro (lerLinha nome_busca (fgets MAX_NOME entrada))
      ((itens st).eraseIdx i) 1 (j - 1) y hget hys
      (by
        intro k hk z hz
        by_cases hki : k < i
        · rw [List.getElem?_eraseIdx_of_lt _ _ _ hki] at hz
          exact hantes k hki z hz
        · rw [List.getElem?_eraseIdx_of_ge _ _ _ (by omega)] at hz
          exact hentre (k + 1) (by omega) (by omega) z hz)
    rw [show (1 : Int) + ((j - 1 : Nat) : Int) = (j : Int) by omega] at hp
    rw [buscarItem_achado _ nome_busca entrada _ hv1 (by rw [hit]; exact hp)]
    exact ⟨rfl, rfl⟩

/-- C15: a pass through the menu whose option is not 1 and not 2 (3, 4, 0,
any other integer, or an option that could not be read) returns the
inventory, counter and array, as it was. -/
theorem iteracao_outras_opcoes (m : Programa) (e : Entrada)
    (h1 : e.opcao ≠ some 1) (h2 : e.opcao ≠ some 2) :
    (iteracao m e).1.st = m.st ∧
    (iteracao m e).1.st.contador_itens = m.st.contador_itens ∧
    itens (iteracao m e).1.st = itens m.st := by
  have h : (iteracao m e).1.st = m.st := by
    unfold iteracao
    split
    · rfl
    · rename_i v hv
      have hv1 : ¬ (v = 1) := fun hh => h1 (by rw [hv, hh])
      have hv2 : ¬ (v = 2) := fun hh => h2 (by rw [hv, hh])
      rw [if_neg hv1, if_neg hv2]
      split
      · exact listarItens_estado m.st
      · split
        · exact buscarItem_estado m.st _ _
        · split <;> rfl
  rw [h]
  exact ⟨rfl, rfl, rfl⟩

/-- C14 at two instances: after removing position 2 (`Kit`) from
`[Faca, Kit, Kit]` the search for `Kit` reports the former third item at
position 2; after removing position 2 from `[Faca, Kit]` it reports none. -/
theorem remover_depois_buscar_exemplo :
    ((mochilaDe [faca, kit, { kit with quantidade := 7 }]).valido ∧
      (itens (mochilaDe [faca, kit, { kit with quantidade := 7 }]))[1]? = some kit ∧
      kit.nome = lerLinha [] (fgets MAX_NOME ['K', 'i', 't', '\n'])) ∧
    (buscarItem (removerItem (mochilaDe [faca, kit, { kit with quantidade := 7 }]) 0
        (some (((1 : Nat) : Int) + 1))).1 [] ['K', 'i', 't', '\n']).2
      = [Saida.encontrado kit.nome ((2 : Nat) : Int) kit.tipo 7 kit.peso] ∧
    resultadoBusca (buscarItem (removerItem (mochilaDe [faca, kit]) 0
        (some (((1 : Nat) : Int) + 1))).1 [] ['K', 'i', 't', '\n']).2 = none :=
  have hantes : ∀ (xs : List Item), xs[0]? = some faca → ∀ k, k < 1 → ∀ z, xs[k]? = some z →
      z.nome ≠ lerLinha [] (fgets MAX_NOME ['K', 'i', 't', '\n']) := by
    intro xs h0 k hk z hz
    have hk0 : k = 0 := by omega
    subst hk0
    rw [h0] at hz
    have hzf : z = faca := (Option.some.inj hz).symm
    subst hzf
    decide
  ⟨⟨by decide, by decide, by decide⟩,
    ((remover_depois_buscar (mochilaDe [faca, kit, { kit with quantidade := 7 }]) 0 []
        ['K', 'i', 't', '\n'] 1 kit (by decide) (by decide)
        (hantes _ (by decide))).2 2 { kit with quantidade := 7 } (by decide) (by decide)
        (by decide) (fun k h1 h2 => absurd h2 (by omega))).1,
    ((remover_depois_buscar (mochilaDe [faca, kit]) 0 [] ['K', 'i', 't', '\n'] 1 kit
        (by decide) (by decide) (hantes _ (by decide))).1
        (fun k hk z hz => by
          have hnone : (itens (mochilaDe [faca, kit]))[k]? = none :=
            List.getElem?_eq_none (by
              have hl : (itens (mochilaDe [faca, kit])).length = 2 := by decide
              omega)
          rw [hnone] at hz
          exact Option.noConfusion hz)).1⟩

/-- C15 at instances: on `[Faca, Kit]` the passes with options 3, 4, 0, 7 and
with an unreadable option leave the inventory as it was, while the same reads
with option 1 or 2 change it. -/
theorem iteracao_outras_opcoes_exemplo :
    ((passoExemplo (some 4)).opcao ≠ some 1 ∧ (passoExemplo (some 4)).opcao ≠ some 2) ∧
    (iteracao { st := mochilaDe [faca, kit], opcao := 1 } (passoExemplo (some 4))).1.st
      = mochilaDe [faca, kit] ∧
    (iteracao { st := mochilaDe [faca, kit], opcao := 1 } (passoExemplo (some 3))).1.st
      = mochilaDe [faca, kit] ∧
    (iteracao { st := mochilaDe [faca, kit], opcao := 1 } (passoExemplo (some 0))).1.st
      = mochilaDe [faca, kit] ∧
    (iteracao { st := mochilaDe [faca, kit], opcao := 1 } (passoExemplo (some 7))).1.st
      = mochilaDe [faca, kit] ∧
    (iteracao { st := mochilaDe [faca, kit], opcao := 1 } (passoExemplo none)).1.st
      = mochilaDe [faca, kit] ∧
    (iteracao { st := mochilaDe [faca, kit], opcao := 1 } (passoExemplo (some 1))).1.st
      ≠ mochilaDe [faca, kit] ∧
    (iteracao { st := mochilaDe [faca, kit], opcao := 1 } (passoExemplo (some 2))).1.st
      ≠ mochilaDe [faca, kit] :=
  ⟨⟨by decide, by decide⟩,
    (iteracao_outras_opcoes _ (passoExemplo (some 4)) (by decide) (by decide)).1,
    (iteracao_outras_opcoes _ (passoExemplo (some 3)) (by decide) (by decide)).1,
    (iteracao_outras_opcoes _ (passoExemplo (some 0)) (by decide) (by decide)).1,
    (iteracao_outras_opcoes _ (passoExemplo (some 7)) (by decide) (by decide)).1,
    (iteracao_outras_opcoes _ (passoExemplo none) (by decide) (by decide)).1,
    by decide, by decide⟩

end FreeFire
